import Mathlib

/-!
Verification of the POPEnv environment adapter (POP_env.py).

The native SDLPoP engine is out of scope: it is modelled as an opaque state
transformer over the named engine variables the adapter binds
(rl_action, rl_kid_dead, current_level, hitp_curr, hitp_max, have_sword,
curr_room, guardhp_curr).  The functions play_level_2 and init_game are taken
as parameters.  Rewards are modelled as rationals; the Python float literals
of the source are exactly representable at this granularity.  The pixel part
of the observation (rl_get_frame, grayscale resize) is outside the properties
considered here and is not modelled; the 4-element state vector is.
Python true division raises ZeroDivisionError on a zero denominator, which is
modelled by Option.none.
-/

/-- Engine-side state: the named global variables of libSDLPoP that POPEnv
reads or writes through ctypes. -/
structure Engine where
  rlAction : Int
  rlKidDead : Int
  currentLevel : Int
  hitpCurr : Int
  hitpMax : Int
  haveSword : Int
  currRoom : Int
  guardhpCurr : Int
  deriving Repr, DecidableEq

/-- The 4-element normalized state vector built by POPEnv._get_obs. -/
structure ObsState where
  normHitpCurr : ℚ
  normHitpMax : ℚ
  normCurrentLevel : ℚ
  isAlive : ℚ
  deriving Repr, DecidableEq

/-- Adapter-side state of a POPEnv instance after construction.  The fields
episodeReturn, gotSword, visitedRooms and prevRoomId are Python attributes
first created inside reset(); they are carried here from construction on,
which is faithful for every post-reset execution (the only ones the source
exercises). -/
structure EnvState where
  engine : Engine
  totalReward : ℚ
  episodeReturn : ℚ
  stepCount : Nat
  prevHp : Option Int
  gotSword : Int
  visitedRooms : Finset Int
  prevRoomId : Int
  guardhpPrev : Int
  deriving DecidableEq

/-- POPEnv.max_steps, set in the constructor. -/
def maxSteps : Nat := 2000000

/-- POPEnv._get_obs, restricted to the numeric state vector.  The division
hitp_curr / hitp_max is Python true division: it raises ZeroDivisionError
when hitp_max is 0, modelled as none.  There is no guard in the source. -/
def getObsState (e : Engine) : Option ObsState :=
  if e.hitpMax = 0 then none
  else some
    { normHitpCurr := (e.hitpCurr : ℚ) / (e.hitpMax : ℚ)
      normHitpMax := (e.hitpMax : ℚ) / 10
      normCurrentLevel := (e.currentLevel : ℚ) / 15
      isAlive := if e.rlKidDead = 0 then 1 else 0 }

/-- One iteration of the frame-skip loop body in POPEnv.step, after
play_level_2 has already been folded into s.engine: reads the engine
variables, computes frame_reward, updates the tracker fields, and reports
whether terminated was set this tick.  Returns (new state, frame_reward,
terminated-this-tick). -/
def tick (s : EnvState) : EnvState × ℚ × Bool :=
  let step_count := s.stepCount + 1
  let current_hp := s.engine.hitpCurr
  let fr1 : ℚ := -(1/100)
  let fr2 : ℚ :=
    match s.prevHp with
    | some p => if current_hp < p then fr1 - 1 else fr1
    | none => fr1
  let fr3 : ℚ :=
    match s.prevHp with
    | some p => if current_hp > p then fr2 + 1 else fr2
    | none => fr2
  let dead := s.engine.rlKidDead = 1
  let fr4 : ℚ := if dead then fr3 - 10 else fr3
  let advanced := s.engine.currentLevel > 1
  let fr5 : ℚ := if advanced then fr4 + 10 else fr4
  let swordEdge := s.engine.haveSword > s.gotSword
  let fr6 : ℚ := if swordEdge then fr5 + 7 else fr5
  let got_sword : Int := if swordEdge then s.engine.haveSword else s.gotSword
  let visited1 : Finset Int :=
    if swordEdge then {s.engine.currRoom} else s.visitedRooms
  let room_id := s.engine.currRoom
  let fr7 : ℚ := if room_id ∉ visited1 then fr6 + 4 else fr6
  let visited2 : Finset Int :=
    if room_id ∉ visited1 then insert room_id visited1 else visited1
  let guardhp_curr := s.engine.guardhpCurr
  let fr8 : ℚ :=
    if room_id = s.prevRoomId then
      if guardhp_curr < s.guardhpPrev then
        if guardhp_curr > 0 then fr7 + 2
        else if s.guardhpPrev > 0 then fr7 + 3
        else fr7
      else fr7
    else fr7
  ({ s with
      stepCount := step_count
      prevHp := some current_hp
      gotSword := got_sword
      visitedRooms := visited2
      prevRoomId := room_id
      guardhpPrev := guardhp_curr },
   fr8,
   dead || advanced)

/-- The frame-skip loop of POPEnv.step: runs up to n ticks (n = 4 in the
source), calling playLevel2 before each tick, accumulating step_reward, and
breaking as soon as terminated is set.  Returns (state, step_reward,
terminated). -/
def stepLoop (playLevel2 : Engine → Engine) : Nat → EnvState → EnvState × ℚ × Bool
  | 0, s => (s, 0, false)
  | n + 1, s =>
    let s0 := { s with engine := playLevel2 s.engine }
    let r := tick s0
    if r.2.2 then (r.1, r.2.1, true)
    else
      let rest := stepLoop playLevel2 n r.1
      (rest.1, r.2.1 + rest.2.1, rest.2.2)

/-- Number of simulated ticks (play_level_2 calls) a stepLoop run executes:
each executed tick counts once, and the loop breaks after a terminating
tick. -/
def ticksRun (playLevel2 : Engine → Engine) : Nat → EnvState → Nat
  | 0, _ => 0
  | n + 1, s =>
    let s0 := { s with engine := playLevel2 s.engine }
    let r := tick s0
    if r.2.2 then 1 else 1 + ticksRun playLevel2 n r.1

/-- POPEnv.step: writes the action to the engine (no validation of the
action code), runs the 4-tick frame-skip loop, adds step_reward to
total_reward, extracts the observation, and computes truncated.  Returns
(state, observation, step_reward, terminated, truncated); none models the
ZeroDivisionError that _get_obs raises when hitp_max is 0. -/
def stepFull (playLevel2 : Engine → Engine) (s : EnvState) (action : Int) :
    Option (EnvState × ObsState × ℚ × Bool × Bool) :=
  let s0 := { s with engine := { s.engine with rlAction := action } }
  let r := stepLoop playLevel2 4 s0
  let s2 := { r.1 with totalReward := r.1.totalReward + r.2.1 }
  match getObsState s2.engine with
  | none => none
  | some obs => some (s2, obs, r.2.1, r.2.2, decide (s2.stepCount ≥ maxSteps))

/-- POPEnv.reset: calls init_game(1) (opaque engine reinitialization,
parameter initGame), then writes 0 into the rl_kid_dead engine variable,
zeroes episode_return and step_count, reinitializes the reward trackers from
the fresh engine state, and extracts the initial observation. -/
def reset (initGame : Engine → Engine) (s : EnvState) :
    Option (EnvState × ObsState) :=
  let e1 := initGame s.engine
  let e2 := { e1 with rlKidDead := 0 }
  let s1 : EnvState :=
    { s with
        engine := e2
        episodeReturn := 0
        stepCount := 0
        gotSword := 0
        prevHp := some e2.hitpCurr
        guardhpPrev := e2.guardhpCurr
        visitedRooms := {e2.currRoom}
        prevRoomId := e2.currRoom }
  match getObsState e2 with
  | none => none
  | some obs => some (s1, obs)

/-- POPEnv construction: total_reward := 0.0, step_count := 0,
max_steps := 2000000, prev_hp := None.  The remaining tracker attributes are
first created by reset(); they are given inert defaults here. -/
def initEnv (e : Engine) : EnvState :=
  { engine := e
    totalReward := 0
    episodeReturn := 0
    stepCount := 0
    prevHp := none
    gotSword := 0
    visitedRooms := ∅
    prevRoomId := 0
    guardhpPrev := 0 }

/-! Additive decomposition of the per-tick frame reward.  Each component
names one of the conditional contributions of the loop body; the lemma
tick_reward_decomp proves that the sequentially accumulated frame_reward of
tick equals their sum. -/

/-- The unconditional -0.01 base cost of every tick. -/
def baseCost : ℚ := -(1/100)

/-- The health-delta component: -1 on a health drop, +1 on a health gain,
0 otherwise or when prev_hp is None. -/
def hpDeltaReward (prevHp : Option Int) (currentHp : Int) : ℚ :=
  match prevHp with
  | some p => if currentHp < p then -1 else if currentHp > p then 1 else 0
  | none => 0

/-- The death component: -10 exactly when rl_kid_dead equals 1. -/
def deathPenalty (e : Engine) : ℚ :=
  if e.rlKidDead = 1 then -10 else 0

/-- The level-advance component: +10 exactly when current_level exceeds 1. -/
def levelBonus (e : Engine) : ℚ :=
  if e.currentLevel > 1 then 10 else 0

/-- The sword-acquisition component: +7 exactly on a rising edge of
have_sword over the tracked got_sword value. -/
def swordBonus (e : Engine) (gotSword : Int) : ℚ :=
  if e.haveSword > gotSword then 7 else 0

/-- The visited-room set against which the exploration bonus of the same
tick is checked: cleared and reseeded with the current room on a sword
rising edge, unchanged otherwise. -/
def visitedAfterSword (e : Engine) (gotSword : Int) (visited : Finset Int) :
    Finset Int :=
  if e.haveSword > gotSword then {e.currRoom} else visited

/-- The exploration component: +4 exactly when the current room is not in
the (possibly just reseeded) visited set. -/
def exploreBonus (e : Engine) (gotSword : Int) (visited : Finset Int) : ℚ :=
  if e.currRoom ∉ visitedAfterSword e gotSword visited then 4 else 0

/-- The boss-combat component: evaluated only in the same room as the
previous tick and only on a guard health drop; +2 while the guard stays
alive, +3 on the transition from positive to nonpositive guard health, 0
otherwise. -/
def bossBonus (e : Engine) (prevRoomId : Int) (guardhpPrev : Int) : ℚ :=
  if e.currRoom = prevRoomId then
    if e.guardhpCurr < guardhpPrev then
      if e.guardhpCurr > 0 then 2
      else if guardhpPrev > 0 then 3
      else 0
    else 0
  else 0

/-- Sum of all reward components of one tick, as read from a pre-tick
adapter state. -/
def tickRewardSpec (s : EnvState) : ℚ :=
  baseCost + hpDeltaReward s.prevHp s.engine.hitpCurr + deathPenalty s.engine
    + levelBonus s.engine + swordBonus s.engine s.gotSword
    + exploreBonus s.engine s.gotSword s.visitedRooms
    + bossBonus s.engine s.prevRoomId s.guardhpPrev

/-- The frame-skip loop of stepFull, with the action already written to the
engine: the loop run that one step(action) call performs. -/
def loopRun (pl : Engine → Engine) (s : EnvState) (a : Int) :
    EnvState × ℚ × Bool :=
  stepLoop pl 4 { s with engine := { s.engine with rlAction := a } }

/-! Concrete fixtures used to instantiate the theorems on explicit inputs. -/

/-- An engine behavior under which play_level_2 leaves every tracked
variable unchanged. -/
def stayEngine : Engine → Engine := fun e => e

/-- An engine behavior under which play_level_2 kills the kid. -/
def dieEngine : Engine → Engine := fun e => { e with rlKidDead := 1 }

/-- A concrete engine snapshot: alive, level 1, 3 of 3 hit points, no sword,
room 5, no guard. -/
def engineA : Engine :=
  { rlAction := 0, rlKidDead := 0, currentLevel := 1, hitpCurr := 3,
    hitpMax := 3, haveSword := 0, currRoom := 5, guardhpCurr := 0 }

/-- A concrete post-reset adapter state over engineA. -/
def envA : EnvState :=
  { engine := engineA, totalReward := 0, episodeReturn := 0, stepCount := 0,
    prevHp := some 3, gotSword := 0, visitedRooms := {5}, prevRoomId := 5,
    guardhpPrev := 5 }

/-- A variant of envA with no remembered guard health, so that no reward
component other than the base cost fires under stayEngine. -/
def envQuiet : EnvState := { envA with guardhpPrev := 0 }

/-- A variant of envA whose engine just picked up the sword in room 5,
with room 4 already visited before the pickup. -/
def envSword : EnvState :=
  { envQuiet with
      engine := { engineA with haveSword := 1 }
      visitedRooms := {4, 5} }

/-- An engine snapshot one tick after the sword pickup, back in the
previously visited room 4. -/
def engineRevisit : Engine :=
  { engineA with haveSword := 1, currRoom := 4 }

/-- The adapter state produced by one full 4-tick step of stayEngine from
envQuiet: only the base cost fires, four times. -/
def envStepped : EnvState :=
  { envQuiet with totalReward := -(1/25), stepCount := 4 }

/-- The observation extracted from engineA. -/
def obsA : ObsState :=
  { normHitpCurr := 1, normHitpMax := 3/10, normCurrentLevel := 1/15,
    isAlive := 1 }

/-- A variant of envA whose engine reports the kid dead. -/
def envDead : EnvState :=
  { envQuiet with engine := { engineA with rlKidDead := 1 } }

/-- An engine snapshot with zero max hit points, the division-by-zero input
of _get_obs. -/
def engineZeroHp : Engine := { engineA with hitpMax := 0 }

theorem ite_add_push (c : Prop) [Decidable c] (x d : ℚ) :
    (if c then x + d else x) = x + if c then d else 0 := by
  split_ifs <;> ring

theorem ite_sub_push (c : Prop) [Decidable c] (x d : ℚ) :
    (if c then x - d else x) = x + if c then -d else 0 := by
  split_ifs <;> ring

theorem hp_step (x : ℚ) (p cur : Int) :
    (if cur > p then (if cur < p then x - 1 else x) + 1
      else if cur < p then x - 1 else x) = x + hpDeltaReward (some p) cur := by
  unfold hpDeltaReward
  by_cases h1 : cur < p
  · have h2 : ¬cur > p := by omega
    simp only [if_pos h1, if_neg h2]
    ring
  · by_cases h2 : cur > p
    · simp only [if_pos h2, if_neg h1]
    · simp only [if_neg h1, if_neg h2]
      ring

theorem boss_step (x : ℚ) (e : Engine) (pr gp : Int) :
    (if e.currRoom = pr then
        if e.guardhpCurr < gp then
          if e.guardhpCurr > 0 then x + 2
          else if gp > 0 then x + 3
          else x
        else x
      else x) = x + bossBonus e pr gp := by
  unfold bossBonus
  split_ifs <;> ring

theorem tick_reward_decomp (s : EnvState) : (tick s).2.1 = tickRewardSpec s := by
  obtain ⟨e, tr, er, sc, ph, gs, vr, pr, gp⟩ := s
  cases ph with
  | none =>
    simp only [tick, tickRewardSpec, hpDeltaReward]
    rw [boss_step, ite_add_push, ite_add_push, ite_add_push, ite_sub_push]
    simp only [baseCost, deathPenalty, levelBonus, swordBonus, exploreBonus,
      visitedAfterSword]
    ring
  | some p =>
    simp only [tick, tickRewardSpec]
    rw [boss_step, ite_add_push, ite_add_push, ite_add_push, ite_sub_push,
      hp_step]
    simp only [baseCost, deathPenalty, levelBonus, swordBonus, exploreBonus,
      visitedAfterSword]

theorem tick_state_update (s : EnvState) :
    (tick s).1.stepCount = s.stepCount + 1 ∧
    (tick s).1.prevHp = some s.engine.hitpCurr ∧
    (tick s).1.prevRoomId = s.engine.currRoom ∧
    (tick s).1.guardhpPrev = s.engine.guardhpCurr ∧
    (tick s).1.gotSword =
      (if s.engine.haveSword > s.gotSword then s.engine.haveSword
        else s.gotSword) ∧
    (tick s).1.visitedRooms =
      insert s.engine.currRoom
        (visitedAfterSword s.engine s.gotSword s.visitedRooms) ∧
    (tick s).1.engine = s.engine ∧
    (tick s).1.totalReward = s.totalReward ∧
    (tick s).1.episodeReturn = s.episodeReturn := by
  unfold tick visitedAfterSword
  split_ifs <;> simp_all [Finset.insert_eq_self]

theorem tick_terminated (s : EnvState) :
    (tick s).2.2 = ((s.engine.rlKidDead = 1 : Bool) || (s.engine.currentLevel > 1 : Bool)) := by
  unfold tick
  rfl

theorem stepLoop_zero (pl : Engine → Engine) (s : EnvState) :
    stepLoop pl 0 s = (s, 0, false) := rfl

theorem stepLoop_succ (pl : Engine → Engine) (n : Nat) (s : EnvState) :
    stepLoop pl (n + 1) s =
      (if (tick { s with engine := pl s.engine }).2.2 then
        ((tick { s with engine := pl s.engine }).1,
         (tick { s with engine := pl s.engine }).2.1, true)
      else
        ((stepLoop pl n (tick { s with engine := pl s.engine }).1).1,
         (tick { s with engine := pl s.engine }).2.1 +
           (stepLoop pl n (tick { s with engine := pl s.engine }).1).2.1,
         (stepLoop pl n (tick { s with engine := pl s.engine }).1).2.2)) := rfl

theorem ticksRun_zero (pl : Engine → Engine) (s : EnvState) :
    ticksRun pl 0 s = 0 := rfl

theorem ticksRun_succ (pl : Engine → Engine) (n : Nat) (s : EnvState) :
    ticksRun pl (n + 1) s =
      (if (tick { s with engine := pl s.engine }).2.2 then 1
        else 1 + ticksRun pl n (tick { s with engine := pl s.engine }).1) :=
  rfl

theorem stepLoop_stepCount (pl : Engine → Engine) (n : Nat) :
    ∀ s : EnvState,
      (stepLoop pl n s).1.stepCount = s.stepCount + ticksRun pl n s := by
  induction n with
  | zero => intro s; simp [stepLoop_zero, ticksRun_zero]
  | succ n ih =>
    intro s
    rw [stepLoop_succ, ticksRun_succ]
    have hsc : (tick { s with engine := pl s.engine }).1.stepCount =
        s.stepCount + 1 := by
      simpa using (tick_state_update { s with engine := pl s.engine }).1
    by_cases h : (tick { s with engine := pl s.engine }).2.2 = true
    · rw [if_pos h, if_pos h]
      exact hsc
    · rw [if_neg h, if_neg h, ih]
      omega

theorem stepLoop_totalReward (pl : Engine → Engine) (n : Nat) :
    ∀ s : EnvState, (stepLoop pl n s).1.totalReward = s.totalReward := by
  induction n with
  | zero => intro s; rfl
  | succ n ih =>
    intro s
    rw [stepLoop_succ]
    have htr : (tick { s with engine := pl s.engine }).1.totalReward =
        s.totalReward := by
      simpa using (tick_state_update { s with engine := pl s.engine }).2.2.2.2.2.2.2.1
    by_cases h : (tick { s with engine := pl s.engine }).2.2 = true
    · rw [if_pos h]
      exact htr
    · rw [if_neg h, ih]
      exact htr

theorem stepLoop_episodeReturn (pl : Engine → Engine) (n : Nat) :
    ∀ s : EnvState, (stepLoop pl n s).1.episodeReturn = s.episodeReturn := by
  induction n with
  | zero => intro s; rfl
  | succ n ih =>
    intro s
    rw [stepLoop_succ]
    have her : (tick { s with engine := pl s.engine }).1.episodeReturn =
        s.episodeReturn := by
      simpa using (tick_state_update { s with engine := pl s.engine }).2.2.2.2.2.2.2.2
    by_cases h : (tick { s with engine := pl s.engine }).2.2 = true
    · rw [if_pos h]
      exact her
    · rw [if_neg h, ih]
      exact her

theorem stepLoop_term (pl : Engine → Engine) (n : Nat) :
    ∀ s : EnvState,
      (stepLoop pl (n + 1) s).2.2 =
        (decide ((stepLoop pl (n + 1) s).1.engine.rlKidDead = 1)
          || decide ((stepLoop pl (n + 1) s).1.engine.currentLevel > 1)) := by
  induction n with
  | zero =>
    intro s
    rw [stepLoop_succ]
    have he : (tick { s with engine := pl s.engine }).1.engine =
        pl s.engine := by
      simpa using (tick_state_update { s with engine := pl s.engine }).2.2.2.2.2.2.1
    have ht := tick_terminated { s with engine := pl s.engine }
    by_cases h : (tick { s with engine := pl s.engine }).2.2 = true
    · rw [if_pos h]
      simp only [he]
      rw [← ht]
      exact h.symm
    · rw [if_neg h]
      simp only [stepLoop_zero, he]
      rw [← ht]
      exact (Bool.not_eq_true _).mp h |>.symm
  | succ n ih =>
    intro s
    rw [stepLoop_succ]
    have he : (tick { s with engine := pl s.engine }).1.engine =
        pl s.engine := by
      simpa using (tick_state_update { s with engine := pl s.engine }).2.2.2.2.2.2.1
    have ht := tick_terminated { s with engine := pl s.engine }
    by_cases h : (tick { s with engine := pl s.engine }).2.2 = true
    · rw [if_pos h]
      simp only [he]
      rw [← ht]
      exact h.symm
    · rw [if_neg h]
      exact ih (tick { s with engine := pl s.engine }).1

theorem ticksRun_le (pl : Engine → Engine) (n : Nat) :
    ∀ s : EnvState, ticksRun pl n s ≤ n := by
  induction n with
  | zero => intro s; exact Nat.le_refl 0
  | succ n ih =>
    intro s
    rw [ticksRun_succ]
    by_cases h : (tick { s with engine := pl s.engine }).2.2 = true
    · rw [if_pos h]
      omega
    · rw [if_neg h]
      have := ih (tick { s with engine := pl s.engine }).1
      omega

theorem ticksRun_pos (pl : Engine → Engine) (n : Nat) (s : EnvState) :
    1 ≤ ticksRun pl (n + 1) s := by
  rw [ticksRun_succ]
  by_cases h : (tick { s with engine := pl s.engine }).2.2 = true
  · rw [if_pos h]
  · rw [if_neg h]
    omega

theorem ticksRun_of_not_term (pl : Engine → Engine) (n : Nat) :
    ∀ s : EnvState,
      (stepLoop pl n s).2.2 = false → ticksRun pl n s = n := by
  induction n with
  | zero => intro s _; rfl
  | succ n ih =>
    intro s hterm
    rw [stepLoop_succ] at hterm
    rw [ticksRun_succ]
    by_cases h : (tick { s with engine := pl s.engine }).2.2 = true
    · rw [if_pos h] at hterm
      exact absurd hterm (by simp)
    · rw [if_neg h] at hterm
      rw [if_neg h, ih (tick { s with engine := pl s.engine }).1 hterm]
      omega

theorem tick_er_indep (s : EnvState) (q : ℚ) :
    tick { s with episodeReturn := q } =
      ({ (tick s).1 with episodeReturn := q }, (tick s).2) := rfl

theorem stepLoop_er_indep (pl : Engine → Engine) (n : Nat) :
    ∀ (s : EnvState) (q : ℚ),
      stepLoop pl n { s with episodeReturn := q } =
        ({ (stepLoop pl n s).1 with episodeReturn := q },
         (stepLoop pl n s).2) := by
  induction n with
  | zero => intro s q; rfl
  | succ n ih =>
    intro s q
    rw [stepLoop_succ, stepLoop_succ]
    have hmix : ({ s with episodeReturn := q } : EnvState).engine = s.engine := rfl
    have htick : tick { ({ s with episodeReturn := q } : EnvState) with
        engine := pl s.engine } =
        ({ (tick { s with engine := pl s.engine }).1 with episodeReturn := q },
         (tick { s with engine := pl s.engine }).2) :=
      tick_er_indep { s with engine := pl s.engine } q
    by_cases h : (tick { s with engine := pl s.engine }).2.2 = true
    · rw [hmix, htick]
      simp only [h, if_true]
    · rw [hmix, htick]
      simp only [h, Bool.false_eq_true, if_false]
      rw [ih]

theorem stepFull_eq_match (pl : Engine → Engine) (s : EnvState) (a : Int) :
    stepFull pl s a =
      match getObsState (loopRun pl s a).1.engine with
      | none => none
      | some obs0 =>
        some ({ (loopRun pl s a).1 with
                  totalReward :=
                    (loopRun pl s a).1.totalReward + (loopRun pl s a).2.1 },
              obs0, (loopRun pl s a).2.1, (loopRun pl s a).2.2,
              decide ((loopRun pl s a).1.stepCount ≥ maxSteps)) := rfl

theorem stepFull_inv (pl : Engine → Engine) (s : EnvState) (a : Int)
    {s' : EnvState} {obs : ObsState} {r : ℚ} {term trunc : Bool}
    (h : stepFull pl s a = some (s', obs, r, term, trunc)) :
    s' = { (loopRun pl s a).1 with
            totalReward :=
              (loopRun pl s a).1.totalReward + (loopRun pl s a).2.1 } ∧
    getObsState (loopRun pl s a).1.engine = some obs ∧
    r = (loopRun pl s a).2.1 ∧
    term = (loopRun pl s a).2.2 ∧
    trunc = decide ((loopRun pl s a).1.stepCount ≥ maxSteps) := by
  rw [stepFull_eq_match] at h
  cases hobs : getObsState (loopRun pl s a).1.engine with
  | none =>
    rw [hobs] at h
    exact absurd h (by simp)
  | some o =>
    rw [hobs] at h
    simp only [Option.some.injEq, Prod.mk.injEq] at h
    obtain ⟨h1, h2, h3, h4, h5⟩ := h
    exact ⟨h1.symm, congrArg some h2, h3.symm, h4.symm, h5.symm⟩

/-- C1: within a step() call, a tick in which the engine reports the kid
dead yields a frame reward whose death component is -10, sets terminated,
and makes the frame-skip loop exit immediately: whatever tick budget n + 1
remained, exactly one further tick is simulated and the loop returns after
it. -/
theorem death_tick_exits_immediately (pl : Engine → Engine) (n : Nat)
    (s : EnvState) (h : (pl s.engine).rlKidDead = 1) :
    (stepLoop pl (n + 1) s).2.2 = true ∧
    (stepLoop pl (n + 1) s).2.1 =
      (tick { s with engine := pl s.engine }).2.1 ∧
    (tick { s with engine := pl s.engine }).2.1 =
      baseCost + hpDeltaReward s.prevHp (pl s.engine).hitpCurr + (-10)
        + levelBonus (pl s.engine) + swordBonus (pl s.engine) s.gotSword
        + exploreBonus (pl s.engine) s.gotSword s.visitedRooms
        + bossBonus (pl s.engine) s.prevRoomId s.guardhpPrev ∧
    ticksRun pl (n + 1) s = 1 ∧
    (stepLoop pl (n + 1) s).1.stepCount = s.stepCount + 1 := by
  have hterm : (tick { s with engine := pl s.engine }).2.2 = true := by
    rw [tick_terminated]
    simp [h]
  refine ⟨?_, ?_, ?_, ?_, ?_⟩
  · rw [stepLoop_succ, if_pos hterm]
  · rw [stepLoop_succ, if_pos hterm]
  · rw [tick_reward_decomp]
    unfold tickRewardSpec
    simp [deathPenalty, h]
  · rw [ticksRun_succ, if_pos hterm]
  · rw [stepLoop_succ, if_pos hterm]
    simpa using (tick_state_update { s with engine := pl s.engine }).1

/-- Witness: a concrete run in which the engine kills the kid on the first
tick of the frame-skip loop. -/
theorem death_tick_exits_immediately_witness :
    (stepLoop dieEngine 4 envQuiet).2.2 = true ∧
    (stepLoop dieEngine 4 envQuiet).2.1 =
      (tick { envQuiet with engine := dieEngine envQuiet.engine }).2.1 ∧
    (tick { envQuiet with engine := dieEngine envQuiet.engine }).2.1 =
      baseCost
        + hpDeltaReward envQuiet.prevHp (dieEngine envQuiet.engine).hitpCurr
        + (-10) + levelBonus (dieEngine envQuiet.engine)
        + swordBonus (dieEngine envQuiet.engine) envQuiet.gotSword
        + exploreBonus (dieEngine envQuiet.engine) envQuiet.gotSword
            envQuiet.visitedRooms
        + bossBonus (dieEngine envQuiet.engine) envQuiet.prevRoomId
            envQuiet.guardhpPrev ∧
    ticksRun dieEngine 4 envQuiet = 1 ∧
    (stepLoop dieEngine 4 envQuiet).1.stepCount = envQuiet.stepCount + 1 :=
  death_tick_exits_immediately dieEngine 3 envQuiet rfl

/-- C2: the observation extractor does not produce an observation when the
maximal hit points are zero: the unguarded division hp_current / hp_max
fails (a ZeroDivisionError in the source, none here) instead of returning a
wrong observation. -/
theorem obs_zero_hpmax_fails (e : Engine) (h : e.hitpMax = 0) :
    getObsState e = none := by
  unfold getObsState
  rw [if_pos h]

/-- Witness: the extractor fails on the concrete zero-max-hp engine. -/
theorem obs_zero_hpmax_fails_witness :
    engineZeroHp.hitpMax = 0 ∧ getObsState engineZeroHp = none :=
  ⟨rfl, obs_zero_hpmax_fails engineZeroHp rfl⟩

/-- C7: a tick with unchanged health, in the already-visited previous room,
with no sword rising edge, the kid alive, level 1 and no guard health drop
is rewarded exactly the base cost -0.01. -/
theorem quiet_tick_reward (s : EnvState)
    (h1 : s.prevHp = some s.engine.hitpCurr)
    (h2 : s.engine.currRoom = s.prevRoomId)
    (h3 : s.engine.currRoom ∈ s.visitedRooms)
    (h4 : ¬s.engine.haveSword > s.gotSword)
    (h5 : s.engine.rlKidDead ≠ 1)
    (h6 : s.engine.currentLevel = 1)
    (h7 : ¬s.engine.guardhpCurr < s.guardhpPrev) :
    (tick s).2.1 = -(1/100) := by
  rw [tick_reward_decomp]
  unfold tickRewardSpec baseCost hpDeltaReward deathPenalty levelBonus
    swordBonus exploreBonus visitedAfterSword bossBonus
  rw [h1]
  simp [h2, h3, h4, h5, h6, h7]
  exact h2 ▸ h3

/-- Witness: the quiet fixture earns exactly -0.01 in one tick. -/
theorem quiet_tick_reward_witness :
    (tick envQuiet).2.1 = -(1/100) :=
  quiet_tick_reward envQuiet rfl rfl (by decide) (by decide) (by decide)
    (by decide) (by decide)

/-- C5: on a sword rising edge the tick reward has a +7 sword component and
a 0 exploration component, the sword flag is updated to have_sword, and
visited_rooms is cleared and reseeded to exactly the current room; as a
consequence, a next tick in any other room revisited from before the pickup
(no new rising edge) has a +4 exploration component again. -/
theorem sword_edge_resets_exploration (s : EnvState)
    (h : s.engine.haveSword > s.gotSword) :
    (tick s).1.gotSword = s.engine.haveSword ∧
    (tick s).1.visitedRooms = {s.engine.currRoom} ∧
    (tick s).2.1 =
      baseCost + hpDeltaReward s.prevHp s.engine.hitpCurr
        + deathPenalty s.engine + levelBonus s.engine + 7 + 0
        + bossBonus s.engine s.prevRoomId s.guardhpPrev ∧
    (∀ e2 : Engine,
      e2.currRoom ∈ s.visitedRooms →
      e2.currRoom ≠ s.engine.currRoom →
      ¬e2.haveSword > s.engine.haveSword →
      (tick { (tick s).1 with engine := e2 }).2.1 =
        baseCost + hpDeltaReward (some s.engine.hitpCurr) e2.hitpCurr
          + deathPenalty e2 + levelBonus e2 + 0 + 4
          + bossBonus e2 s.engine.currRoom s.engine.guardhpCurr) := by
  have hu := tick_state_update s
  have hgot : (tick s).1.gotSword = s.engine.haveSword := by
    rw [hu.2.2.2.2.1, if_pos h]
  have hvis : (tick s).1.visitedRooms = {s.engine.currRoom} := by
    rw [hu.2.2.2.2.2.1]
    unfold visitedAfterSword
    rw [if_pos h]
    exact Finset.insert_eq_self.mpr (Finset.mem_singleton_self _)
  refine ⟨hgot, hvis, ?_, ?_⟩
  · rw [tick_reward_decomp]
    unfold tickRewardSpec swordBonus exploreBonus visitedAfterSword
    rw [if_pos h, if_pos h]
    simp
  · intro e2 _ hne hnoedge
    rw [tick_reward_decomp]
    unfold tickRewardSpec
    have hfields :
        ({ (tick s).1 with engine := e2 } : EnvState).prevHp =
            (tick s).1.prevHp ∧
          ({ (tick s).1 with engine := e2 } : EnvState).gotSword =
            (tick s).1.gotSword ∧
          ({ (tick s).1 with engine := e2 } : EnvState).visitedRooms =
            (tick s).1.visitedRooms ∧
          ({ (tick s).1 with engine := e2 } : EnvState).prevRoomId =
            (tick s).1.prevRoomId ∧
          ({ (tick s).1 with engine := e2 } : EnvState).guardhpPrev =
            (tick s).1.guardhpPrev ∧
          ({ (tick s).1 with engine := e2 } : EnvState).engine = e2 :=
      ⟨rfl, rfl, rfl, rfl, rfl, rfl⟩
    rw [hfields.1, hfields.2.1, hfields.2.2.1, hfields.2.2.2.1,
      hfields.2.2.2.2.1, hfields.2.2.2.2.2, hu.2.1, hgot, hvis,
      hu.2.2.1, hu.2.2.2.1]
    have hsw : swordBonus e2 s.engine.haveSword = 0 := by
      unfold swordBonus
      rw [if_neg hnoedge]
    have hex : exploreBonus e2 s.engine.haveSword {s.engine.currRoom} = 4 := by
      unfold exploreBonus visitedAfterSword
      rw [if_neg hnoedge, if_pos (by simpa using hne)]
    rw [hsw, hex]

/-- Witness: the sword pickup in room 5 with pre-sword visited set {4, 5},
followed by a revisit of room 4. -/
theorem sword_edge_resets_exploration_witness :
    (tick envSword).1.gotSword = envSword.engine.haveSword ∧
    (tick envSword).1.visitedRooms = {envSword.engine.currRoom} ∧
    (tick envSword).2.1 =
      baseCost + hpDeltaReward envSword.prevHp envSword.engine.hitpCurr
        + deathPenalty envSword.engine + levelBonus envSword.engine + 7 + 0
        + bossBonus envSword.engine envSword.prevRoomId
            envSword.guardhpPrev ∧
    (tick { (tick envSword).1 with engine := engineRevisit }).2.1 =
      baseCost
        + hpDeltaReward (some envSword.engine.hitpCurr) engineRevisit.hitpCurr
        + deathPenalty engineRevisit + levelBonus engineRevisit + 0 + 4
        + bossBonus engineRevisit envSword.engine.currRoom
            envSword.engine.guardhpCurr := by
  obtain ⟨c1, c2, c3, c4⟩ :=
    sword_edge_resets_exploration envSword (by decide)
  exact ⟨c1, c2, c3, c4 engineRevisit (by decide) (by decide) (by decide)⟩

/-- C6: the tick reward always carries the boss component, which is nonzero
only when the current room equals the previous room and the guard health
dropped; in that case it is +2 while the guard health stays positive, +3
when it drops from positive to nonpositive (a killing blow), and 0 when the
guard was already at 0. -/
theorem boss_bonus_cases (s : EnvState) :
    (tick s).2.1 =
      baseCost + hpDeltaReward s.prevHp s.engine.hitpCurr
        + deathPenalty s.engine + levelBonus s.engine
        + swordBonus s.engine s.gotSword
        + exploreBonus s.engine s.gotSword s.visitedRooms
        + bossBonus s.engine s.prevRoomId s.guardhpPrev ∧
    (¬(s.engine.currRoom = s.prevRoomId ∧
        s.engine.guardhpCurr < s.guardhpPrev) →
      bossBonus s.engine s.prevRoomId s.guardhpPrev = 0) ∧
    (s.engine.currRoom = s.prevRoomId →
      s.engine.guardhpCurr < s.guardhpPrev →
      s.engine.guardhpCurr > 0 →
      bossBonus s.engine s.prevRoomId s.guardhpPrev = 2) ∧
    (s.engine.currRoom = s.prevRoomId →
      s.engine.guardhpCurr < s.guardhpPrev →
      ¬s.engine.guardhpCurr > 0 →
      s.guardhpPrev > 0 →
      bossBonus s.engine s.prevRoomId s.guardhpPrev = 3) ∧
    (s.engine.currRoom = s.prevRoomId →
      s.engine.guardhpCurr < s.guardhpPrev →
      ¬s.engine.guardhpCurr > 0 →
      ¬s.guardhpPrev > 0 →
      bossBonus s.engine s.prevRoomId s.guardhpPrev = 0) := by
  refine ⟨tick_reward_decomp s, ?_, ?_, ?_, ?_⟩
  · intro hnot
    unfold bossBonus
    by_cases hr : s.engine.currRoom = s.prevRoomId
    · rw [if_pos hr, if_neg (fun hd => hnot ⟨hr, hd⟩)]
    · rw [if_neg hr]
  · intro hr hd hp
    unfold bossBonus
    rw [if_pos hr, if_pos hd, if_pos hp]
  · intro hr hd hp hq
    unfold bossBonus
    rw [if_pos hr, if_pos hd, if_neg hp, if_pos hq]
  · intro hr hd hp hq
    unfold bossBonus
    rw [if_pos hr, if_pos hd, if_neg hp, if_neg hq]

/-- Witness: the killing blow on the concrete fixture (guard health 5 to 0
in the same room) contributes exactly +3 to the decomposed tick reward. -/
theorem boss_bonus_cases_witness :
    bossBonus envA.engine envA.prevRoomId envA.guardhpPrev = 3 ∧
    (tick envA).2.1 =
      baseCost + hpDeltaReward envA.prevHp envA.engine.hitpCurr
        + deathPenalty envA.engine + levelBonus envA.engine
        + swordBonus envA.engine envA.gotSword
        + exploreBonus envA.engine envA.gotSword envA.visitedRooms
        + bossBonus envA.engine envA.prevRoomId envA.guardhpPrev := by
  obtain ⟨c1, c2, c3, c4, c5⟩ := boss_bonus_cases envA
  exact ⟨c4 rfl (by decide) (by decide) (by decide), c1⟩

theorem quiet_step_eval :
    stepFull stayEngine envQuiet 0 =
      some (envStepped, obsA, -(1/25), false, false) := by
  rw [stepFull_eq_match]
  norm_num [loopRun, stepLoop_succ, stepLoop_zero, tick, stayEngine,
    envQuiet, envA, engineA, envStepped, obsA, getObsState, maxSteps]

/-- C4: after a successful step() call, truncated holds exactly when
step_count has reached max_steps = 2,000,000, independently of terminated;
and terminated holds exactly when the tick that ended the step reported
death or a level advance, never because of truncation. -/
theorem terminated_truncated_criteria (pl : Engine → Engine) (s : EnvState)
    (a : Int) (s' : EnvState) (obs : ObsState) (r : ℚ) (term trunc : Bool)
    (h : stepFull pl s a = some (s', obs, r, term, trunc)) :
    maxSteps = 2000000 ∧
    (trunc = true ↔ s'.stepCount ≥ maxSteps) ∧
    (term = true ↔
      (s'.engine.rlKidDead = 1 ∨ s'.engine.currentLevel > 1)) := by
  obtain ⟨hs, hobs, hr, hterm, htrunc⟩ := stepFull_inv pl s a h
  have hsc : s'.stepCount = (loopRun pl s a).1.stepCount := by rw [hs]
  have heng : s'.engine = (loopRun pl s a).1.engine := by rw [hs]
  refine ⟨rfl, ?_, ?_⟩
  · rw [htrunc, hsc]
    simp
  · have hchar := stepLoop_term pl 3
      { s with engine := { s.engine with rlAction := a } }
    have h4 : (3 : Nat) + 1 = 4 := rfl
    rw [h4] at hchar
    rw [hterm, heng]
    unfold loopRun
    rw [hchar]
    simp

/-- Witness: a full quiet 4-tick step neither terminates nor truncates. -/
theorem terminated_truncated_criteria_witness :
    maxSteps = 2000000 ∧
    ((false : Bool) = true ↔ envStepped.stepCount ≥ maxSteps) ∧
    ((false : Bool) = true ↔
      (envStepped.engine.rlKidDead = 1 ∨
        envStepped.engine.currentLevel > 1)) :=
  terminated_truncated_criteria stayEngine envQuiet 0 envStepped obsA
    (-(1/25)) false false quiet_step_eval

/-- C9: a successful step() call increments step_count exactly once per
simulated tick: the increment equals the number of executed ticks, which is
4 when the loop did not terminate early and always lies between 1 and 4. -/
theorem step_count_per_tick (pl : Engine → Engine) (s : EnvState) (a : Int)
    (s' : EnvState) (obs : ObsState) (r : ℚ) (term trunc : Bool)
    (h : stepFull pl s a = some (s', obs, r, term, trunc)) :
    s'.stepCount = s.stepCount +
      ticksRun pl 4 { s with engine := { s.engine with rlAction := a } } ∧
    (term = false →
      ticksRun pl 4 { s with engine := { s.engine with rlAction := a } }
        = 4) ∧
    1 ≤ ticksRun pl 4 { s with engine := { s.engine with rlAction := a } } ∧
    ticksRun pl 4 { s with engine := { s.engine with rlAction := a } }
      ≤ 4 := by
  obtain ⟨hs, hobs, hr, hterm, htrunc⟩ := stepFull_inv pl s a h
  have hsc : s'.stepCount = (loopRun pl s a).1.stepCount := by rw [hs]
  refine ⟨?_, ?_, ?_, ?_⟩
  · rw [hsc]
    unfold loopRun
    rw [stepLoop_stepCount]
  · intro hno
    refine ticksRun_of_not_term pl 4 _ ?_
    rw [hterm] at hno
    exact hno
  · exact ticksRun_pos pl 3 _
  · exact ticksRun_le pl 4 _

/-- Witness: the quiet 4-tick step increments step_count by exactly 4. -/
theorem step_count_per_tick_witness :
    envStepped.stepCount = envQuiet.stepCount +
      ticksRun stayEngine 4
        { envQuiet with
            engine := { envQuiet.engine with rlAction := 0 } } ∧
    ((false : Bool) = false →
      ticksRun stayEngine 4
        { envQuiet with
            engine := { envQuiet.engine with rlAction := 0 } } = 4) ∧
    1 ≤ ticksRun stayEngine 4
        { envQuiet with
            engine := { envQuiet.engine with rlAction := 0 } } ∧
    ticksRun stayEngine 4
        { envQuiet with
            engine := { envQuiet.engine with rlAction := 0 } } ≤ 4 :=
  step_count_per_tick stayEngine envQuiet 0 envStepped obsA (-(1/25))
    false false quiet_step_eval

/-- C3 counterexample: step() called with action 7, outside the 0..5 action
space, does not fail: the out-of-range action is written to the engine and
the call returns a normal observation, reward, terminated and truncated. -/
theorem step_out_of_range_action_cex :
    ((7 : Int) ∉ Finset.Icc (0 : Int) 5) ∧
    stepFull stayEngine envQuiet 7 =
      some ({ envStepped with engine := { engineA with rlAction := 7 } },
        obsA, -(1/25), false, false) := by
  refine ⟨by decide, ?_⟩
  rw [stepFull_eq_match]
  norm_num [loopRun, stepLoop_succ, stepLoop_zero, tick, stayEngine,
    envQuiet, envA, engineA, envStepped, obsA, getObsState, maxSteps]

/-- C3 amended: step() performs no validation of the action code: for every
integer action, in range or not, the action is written unguarded to the
engine and the call completes with the accumulated loop reward; the only
failure point of step() is the unguarded division of the final observation
extraction. -/
theorem step_accepts_any_action (pl : Engine → Engine) (s : EnvState)
    (a : Int) (h : (loopRun pl s a).1.engine.hitpMax ≠ 0) :
    ∃ s' obs term trunc,
      stepFull pl s a = some (s', obs, (loopRun pl s a).2.1, term, trunc) := by
  rw [stepFull_eq_match]
  unfold getObsState
  rw [if_neg h]
  exact ⟨_, _, _, _, rfl⟩

/-- Witness: the out-of-range action 7 is accepted on the quiet fixture. -/
theorem step_accepts_any_action_witness :
    ∃ s' obs term trunc,
      stepFull stayEngine envQuiet 7 =
        some (s', obs, (loopRun stayEngine envQuiet 7).2.1, term, trunc) :=
  step_accepts_any_action stayEngine envQuiet 7 (by decide)

theorem reset_eq_match (ig : Engine → Engine) (s : EnvState) :
    reset ig s =
      match getObsState { ig s.engine with rlKidDead := 0 } with
      | none => none
      | some obs =>
        some
          ({ s with
              engine := { ig s.engine with rlKidDead := 0 }
              episodeReturn := 0
              stepCount := 0
              gotSword := 0
              prevHp :=
                some ({ ig s.engine with rlKidDead := 0 } : Engine).hitpCurr
              guardhpPrev :=
                ({ ig s.engine with rlKidDead := 0 } : Engine).guardhpCurr
              visitedRooms :=
                {({ ig s.engine with rlKidDead := 0 } : Engine).currRoom}
              prevRoomId :=
                ({ ig s.engine with rlKidDead := 0 } : Engine).currRoom },
            obs) := rfl

/-- C8: total_reward is a lifetime running sum: zero at construction, not
reset by reset(), incremented by the step reward on every successful step;
episode_return is zeroed by reset() but afterwards never updated by step()
nor read by it (the result of step() does not depend on its value). -/
theorem total_reward_lifetime_accounting (ig pl : Engine → Engine)
    (s : EnvState) (a : Int) (q : ℚ) :
    (initEnv s.engine).totalReward = 0 ∧
    (∀ s1 obs, reset ig s = some (s1, obs) →
      s1.totalReward = s.totalReward ∧ s1.episodeReturn = 0) ∧
    (∀ s' obs r term trunc,
      stepFull pl s a = some (s', obs, r, term, trunc) →
      s'.totalReward = s.totalReward + r ∧
      s'.episodeReturn = s.episodeReturn) ∧
    stepFull pl { s with episodeReturn := q } a =
      (stepFull pl s a).map fun t =>
        ({ t.1 with episodeReturn := q }, t.2) := by
  refine ⟨rfl, ?_, ?_, ?_⟩
  · intro s1 obs h
    rw [reset_eq_match] at h
    cases hobs : getObsState { ig s.engine with rlKidDead := 0 } with
    | none =>
      rw [hobs] at h
      exact absurd h (by simp)
    | some o =>
      rw [hobs] at h
      simp only [Option.some.injEq, Prod.mk.injEq] at h
      obtain ⟨h1, h2⟩ := h
      rw [← h1]
      exact ⟨rfl, rfl⟩
  · intro s' obs r term trunc h
    obtain ⟨hs, hobs, hr, hterm, htrunc⟩ := stepFull_inv pl s a h
    have h1 : (loopRun pl s a).1.totalReward = s.totalReward := by
      unfold loopRun
      rw [stepLoop_totalReward]
    have h2 : (loopRun pl s a).1.episodeReturn = s.episodeReturn := by
      unfold loopRun
      rw [stepLoop_episodeReturn]
    constructor
    · rw [hs, hr, ← h1]
    · rw [hs, ← h2]
  · rw [stepFull_eq_match, stepFull_eq_match]
    have hl : loopRun pl { s with episodeReturn := q } a =
        ({ (loopRun pl s a).1 with episodeReturn := q },
          (loopRun pl s a).2) :=
      stepLoop_er_indep pl 4
        { s with engine := { s.engine with rlAction := a } } q
    rw [hl]
    have hsc :
        ({ (loopRun pl s a).1 with episodeReturn := q } : EnvState).engine =
          (loopRun pl s a).1.engine := rfl
    rw [hsc]
    cases hobs : getObsState (loopRun pl s a).1.engine with
    | none => rfl
    | some o => rfl

/-- Witness: the quiet 4-tick step adds its reward to total_reward and
leaves episode_return untouched. -/
theorem total_reward_lifetime_accounting_witness :
    envStepped.totalReward = envQuiet.totalReward + -(1/25) ∧
    envStepped.episodeReturn = envQuiet.episodeReturn :=
  (total_reward_lifetime_accounting stayEngine stayEngine envQuiet 0
      0).2.2.1 envStepped obsA (-(1/25)) false false quiet_step_eval

theorem getObsState_alive (e : Engine) (h : e.rlKidDead = 0) (o : ObsState)
    (ho : getObsState e = some o) : o.isAlive = 1 := by
  unfold getObsState at ho
  by_cases hm : e.hitpMax = 0
  · rw [if_pos hm] at ho
    exact absurd ho (by simp)
  · rw [if_neg hm] at ho
    simp only [Option.some.injEq] at ho
    rw [← ho]
    simp [h]

/-- C10: reset() writes 0 into the engine kid_dead flag before extracting
the initial observation, so the observation it returns reports the
character alive (isAlive feature equal to 1) for every reset, whatever
initGame does and whatever the prior engine state was, including a kid that
died in the previous episode. -/
theorem reset_reports_alive (ig : Engine → Engine) (s : EnvState)
    (s1 : EnvState) (obs : ObsState) (h : reset ig s = some (s1, obs)) :
    s1.engine.rlKidDead = 0 ∧ obs.isAlive = 1 := by
  rw [reset_eq_match] at h
  cases hobs : getObsState { ig s.engine with rlKidDead := 0 } with
  | none =>
    rw [hobs] at h
    exact absurd h (by simp)
  | some o =>
    rw [hobs] at h
    simp only [Option.some.injEq, Prod.mk.injEq] at h
    obtain ⟨h1, h2⟩ := h
    constructor
    · rw [← h1]
    · rw [← h2]
      exact getObsState_alive _ rfl o hobs

theorem reset_dead_eval :
    reset stayEngine envDead = some (envQuiet, obsA) := by
  rw [reset_eq_match]
  norm_num [stayEngine, envDead, envQuiet, envA, engineA, getObsState, obsA]

/-- Witness: resetting right after a death episode still reports alive. -/
theorem reset_reports_alive_witness :
    envQuiet.engine.rlKidDead = 0 ∧ obsA.isAlive = 1 :=
  reset_reports_alive stayEngine envDead envQuiet obsA reset_dead_eval
